import Mathlib

/-!
Verification of the Convert2Cbz conversion engine against its design
specification.  The Python source (converter.py, convert2cbz.py,
convert2cbr.py) is shallowly embedded: pure computations become Lean
functions over `ℚ`/`ℤ`/`List`, library collaborators (rarfile, zipfile,
lxml) are modelled by the outcome values they hand back to the code, and
`sys.exit` / uncaught exceptions become explicit error values.
-/

namespace Convert2Cbz

/-- Python's built-in `round` on the exact value: round half to even
(banker's rounding), as applied in `PdfConverter._compute_dpi`
(converter.py line 250, `round(sum(dpi_values) / len(dpi_values))`). -/
def pyRound (q : ℚ) : ℤ :=
  if q - ⌊q⌋ < 1 / 2 then ⌊q⌋
  else if 1 / 2 < q - ⌊q⌋ then ⌊q⌋ + 1
  else if ⌊q⌋ % 2 = 0 then ⌊q⌋ else ⌊q⌋ + 1

/-- `PdfConverter._compute_dpi` (converter.py lines 242-253): per page
`int(2000 / width * 72)` — `int()` truncates, which is the floor for the
positive page widths — then `round` of the mean, then `max(dpi, 100)`. -/
def compute_dpi (page_widths : List ℚ) : ℤ :=
  let dpi_values := page_widths.map fun width => (⌊2000 / width * 72⌋ : ℤ)
  let dpi := pyRound ((dpi_values.sum : ℚ) / (dpi_values.length : ℚ))
  max dpi 100

/-- Follows the spec's words for `computeAutoDpi` (spec §4.3): per page
`dpi_i = round(2000 / width_i * 72)`, then the mean across all pages,
floored at a minimum of 100.  Kept separate from `compute_dpi` (the
translation of the source) so the two can be compared. -/
def computeAutoDpi_spec (page_widths : List ℚ) : ℤ :=
  let dpi_values := page_widths.map fun width => round ((2000 : ℚ) / width * 72)
  max (round ((dpi_values.sum : ℚ) / (dpi_values.length : ℚ))) 100

/-- The DPI actually used by `PdfConverter.convert` (converter.py lines
291-293): `set_dpi` stores the CLI value (`none` when the flag is absent),
and `if not self.dpi: self._compute_dpi()` re-computes whenever the stored
value is falsy — `None` or `0`. -/
def effective_dpi (cfg : Option ℤ) (page_widths : List ℚ) : ℤ :=
  match cfg with
  | none => compute_dpi page_widths
  | some d => if d = 0 then compute_dpi page_widths else d

/-- Python's `str.zfill`: pad the (unsigned) string on the left with `'0'`
up to `width` characters, as used in `PdfConverter.process_page`
(converter.py line 282). -/
def zfill (width : ℕ) (s : String) : String :=
  if width ≤ s.length then s
  else String.mk (List.replicate (width - s.length) '0') ++ s

/-- The artifact name built by `PdfConverter.process_page` (converter.py
line 282): stem, an underscore, the zero-padded page number, a dot,
and the encoding extension. -/
def page_name (stem : String) (padding : ℕ) (page_number : ℕ) (ext : String) : String :=
  stem ++ "_" ++ zfill padding (toString page_number) ++ "." ++ ext

/-- The 1-based page numbers submitted to the pool by
`PdfConverter.convert` (converter.py lines 309-310):
`executor.submit(self.process_page, i + 1) ... for i in range(0, num_pages)`. -/
def pdf_pages (n : ℕ) : List ℕ :=
  (List.range n).map (· + 1)

/-- The `as_completed` loop of `PdfConverter.convert` (converter.py lines
313-320).  `order` is the order in which the page futures complete (some
permutation of `pdf_pages n`); `render i = some name` when
`process_page i` returns an artifact named `name`, and `none` when it
raises `ExportImageError`, in which case the loop only logs and moves on.
Each successful result is written to the zip immediately
(`zip_fid.writestr`), with no sorting step, so the returned list is the
archive's entry sequence in completion order. -/
def as_completed_writes (order : List ℕ) (render : ℕ → Option String) : List (ℕ × String) :=
  order.filterMap fun i => (render i).map fun nm => (i, nm)

/-- The destination archive produced by `PdfConverter.convert`:
`zipfile.ZipFile(self.output, "w")` is opened (creating the file) at
converter.py line 306, before any page result is awaited, so the archive
exists — `some entries` — for every render outcome, including all pages
failing. -/
def pdf_archive (order : List ℕ) (render : ℕ → Option String) :
    Option (List (ℕ × String)) :=
  some (as_completed_writes order render)

/-- A render outcome in which every page succeeds, producing the
`process_page` artifact name (stem `"doc"`, padding 1, PNG encoding). -/
def render_ok (i : ℕ) : Option String :=
  some (page_name "doc" 1 i "png")

/-- A render outcome in which every page raises `ExportImageError`
(converter.py line 285). -/
def render_fail (_ : ℕ) : Option String :=
  none

/-- Outcome of the assembly step of `EpubConverter.convert` (converter.py
lines 164-176): `noContent` when `len(images) == 0` ("Archive contains
not file" is logged and no archive is opened), otherwise the ordered
entries written into the freshly created zip. -/
inductive EpubAssembly
  | noContent
  | written (entries : List String)
deriving DecidableEq

/-- The empty-sequence check and zip write of `EpubConverter.convert`
(converter.py lines 164-176). -/
def epub_assemble (images : List String) : EpubAssembly :=
  if images.length = 0 then EpubAssembly.noContent
  else EpubAssembly.written images

/-- A spine document as seen by `resolve_image` (converter.py lines
52-78): `missing` — `spine_path.exists()` is false and the path is
skipped; `unparsable` — `etree.parse` raises `ParseError`, which is
caught, logged and skipped; `parsed imgs` — the document parses, and
`imgs` lists the `src` attribute of each `<img>` tag in order (`none`
when the tag has no `src` attribute, in which case `img_tag.attrib['src']`
raises an uncaught `KeyError`). -/
inductive SpineDoc
  | missing
  | unparsable
  | parsed (imgs : List (Option String))

/-- The inner `<img>` loop of `resolve_image` (converter.py lines 65-72)
run over one parsed document: `resolve` is `temp_dir.joinpath(src).resolve()`
and `fexists` is `img_path.exists()`; an empty `src` is skipped
(`if not src: continue`), a missing `src` attribute raises `KeyError`
(`Except.error`), and an existing, not-yet-seen resolved path is appended
to the accumulated list. -/
def resolve_doc (resolve : String → String) (fexists : String → Bool) :
    List String → List (Option String) → Except Unit (List String)
  | acc, [] => Except.ok acc
  | _, none :: _ => Except.error ()
  | acc, some src :: rest =>
      if src = "" then resolve_doc resolve fexists acc rest
      else
        let img_path := resolve src
        if fexists img_path && !(acc.contains img_path) then
          resolve_doc resolve fexists (acc ++ [img_path]) rest
        else
          resolve_doc resolve fexists acc rest

/-- The outer spine loop of `resolve_image` (converter.py lines 57-76)
threading the accumulated image list through the documents. -/
def resolve_image_aux (resolve : String → String) (fexists : String → Bool) :
    List String → List SpineDoc → Except Unit (List String)
  | acc, [] => Except.ok acc
  | acc, SpineDoc.missing :: rest => resolve_image_aux resolve fexists acc rest
  | acc, SpineDoc.unparsable :: rest => resolve_image_aux resolve fexists acc rest
  | acc, SpineDoc.parsed imgs :: rest =>
      match resolve_doc resolve fexists acc imgs with
      | Except.error e => Except.error e
      | Except.ok acc2 => resolve_image_aux resolve fexists acc2 rest

/-- `resolve_image` (converter.py lines 52-78): starts from the empty
`images` list and folds the spine documents in order. -/
def resolve_image (resolve : String → String) (fexists : String → Bool)
    (spine_list : List SpineDoc) : Except Unit (List String) :=
  resolve_image_aux resolve fexists [] spine_list

/-- An extracted package in which exactly `a.png` and `b.png` exist on
disk under the package root. -/
def exists_ab (p : String) : Bool :=
  p = "a.png" || p = "b.png"

/-- Outcome of probing an input file with `rarfile`, as exercised by
`Converter.is_valid_rar` (converter.py lines 97-104): `notRarFile` —
`rarfile.RarFile(...)` raises `rarfile.NotRarFile` (wrong magic bytes,
empty file); `badRarFile` — `rarfile.BadRarFile` is raised at open or by
`testrar()` (malformed or truncated headers, entry checksum failure);
`testFoundBad e` — `testrar()` reports `e` as the first failing entry;
`testOk` — `testrar()` returns `None`. -/
inductive RarProbe
  | notRarFile
  | badRarFile
  | testFoundBad (entry : String)
  | testOk
deriving DecidableEq

/-- `Converter.is_valid_rar` (converter.py lines 97-104): `try` returns
`rar_file.testrar() is None`; `except (rarfile.BadRarFile,
rarfile.NotRarFile)` returns `False`.  Total over every probe outcome. -/
def is_valid_rar : RarProbe → Bool
  | RarProbe.notRarFile => false
  | RarProbe.badRarFile => false
  | RarProbe.testFoundBad _ => false
  | RarProbe.testOk => true

/-- Outcome of probing an input file with `zipfile`, as exercised by
`Converter.is_valid_zip` (converter.py lines 106-113): `badZipFile` —
`zipfile.ZipFile(...)` raises `zipfile.BadZipfile` (empty file, truncated
header, wrong magic, broken structure); `testFoundBad e` — `testzip()`
reports `e` as the first entry failing its checksum; `testOk` —
`testzip()` returns `None`. -/
inductive ZipProbe
  | badZipFile
  | testFoundBad (entry : String)
  | testOk
deriving DecidableEq

/-- `Converter.is_valid_zip` (converter.py lines 106-113): `try` returns
`zip_file.testzip() is None`; `except zipfile.BadZipfile` returns
`False`.  Total over every probe outcome. -/
def is_valid_zip : ZipProbe → Bool
  | ZipProbe.badZipFile => false
  | ZipProbe.testFoundBad _ => false
  | ZipProbe.testOk => true

/-- A file carrying the legacy-archive (`.cbr`) extension, described by
what the two validators report and by its entry sets under each reading:
`rarEntries` — the file paths obtained by extracting it as a RAR archive;
`zipEntries` — its entry set when read as a zip container. -/
structure CbrFile where
  validRar : Bool
  validZip : Bool
  rarEntries : List String
  zipEntries : List String
deriving DecidableEq

/-- `convert_cbr_to_cbz` of convert2cbz.py (lines 102-122): a valid RAR is
re-encoded by `CbrConverter.convert` (extract all, `sorted(...)` paths,
write each into a fresh zip; nothing is written when the extraction is
empty, converter.py lines 194-202); an invalid RAR that is a valid zip is
`shutil.copy`-ed byte-identical, so the destination's entry set is the
source's `zipEntries`; otherwise a warning is logged and nothing is
written.  The result is the destination archive's entry list, `none` when
no file is produced. -/
def convert_cbr_to_cbz (f : CbrFile) : Except Unit (Option (List String)) :=
  if f.validRar then
    let files := f.rarEntries.mergeSort fun a b => decide (a ≤ b)
    if files.isEmpty then Except.ok none
    else Except.ok (some files)
  else if f.validZip then
    Except.ok (some f.zipEntries)
  else
    Except.ok none

/-- `convert_cbr_to_cbz` of convert2cbr.py (lines 94-103): no validity
check at all — `CbrConverter.convert()` is invoked directly, and on a
non-RAR input `rarfile.RarFile(self.input)` (converter.py line 187)
raises `rarfile.NotRarFile`, which nothing in that driver catches
(`Except.error`). -/
def convert_cbr_to_cbz_legacy (f : CbrFile) : Except Unit (Option (List String)) :=
  if f.validRar then
    let files := f.rarEntries.mergeSort fun a b => decide (a ≤ b)
    if files.isEmpty then Except.ok none
    else Except.ok (some files)
  else Except.error ()

/-- A `.cbr`-named file whose bytes are a valid zip container (and hence
not a valid RAR archive) holding two page images. -/
def mislabeled_zip : CbrFile :=
  { validRar := false
    validZip := true
    rarEntries := []
    zipEntries := ["page1.png", "page2.png"] }

/-- The three supported input formats, detected by extension
(convert2cbz.py `list_files`, lines 150-165). -/
inductive FileFmt
  | pdf
  | cbr
  | epub
deriving DecidableEq

/-- Which conversion function a job is handed to: `convert_pdf_to_cbz`,
`convert_cbr_to_cbz` or `convert_epub_to_cbz` (convert2cbz.py). -/
inductive Worker
  | pdfWorker
  | cbrWorker
  | epubWorker
deriving DecidableEq

/-- Dispatch performed by the directory-scan driver `process_path`
(convert2cbz.py lines 168-213): PDFs go to `convert_pdf_to_cbz`
(line 180), CBRs are submitted to `convert_cbr_to_cbz` (line 187), and
EPUBs are likewise submitted to `convert_cbr_to_cbz` (line 203) — not to
`convert_epub_to_cbz`. -/
def process_path_worker : FileFmt → Worker
  | FileFmt.pdf => Worker.pdfWorker
  | FileFmt.cbr => Worker.cbrWorker
  | FileFmt.epub => Worker.cbrWorker

/-- Python's `str.lower()` on one character, for the ASCII range file
extensions live in. -/
def py_lower_char (c : Char) : Char :=
  if 'A' ≤ c ∧ c ≤ 'Z' then Char.ofNat (c.toNat + 32) else c

/-- Python's `str.lower()` as applied to extension suffixes
(`item.suffix.lower()`, convert2cbz.py lines 158-162 and 281-285). -/
def py_lower (s : String) : String :=
  String.mk (s.data.map py_lower_char)

/-- Dispatch performed on a single-file input by `process_input`
(convert2cbz.py lines 277-292), keyed on `path.suffix.lower()`; `none`
for an unsupported extension ("File format is not supported"). -/
def process_input_worker (suffix : String) : Option Worker :=
  if py_lower suffix = ".pdf" then some Worker.pdfWorker
  else if py_lower suffix = ".cbr" then some Worker.cbrWorker
  else if py_lower suffix = ".epub" then some Worker.epubWorker
  else none

/-- A PDF conversion job, described by whether opening its destination
archive for writing raises `PermissionError`. -/
structure PdfJob where
  permissionDenied : Bool
deriving DecidableEq

/-- The `except PermissionError` handler of `PdfConverter.convert`
(converter.py lines 323-325): a denied destination is logged
("Permission denied - unable to create output file") and the process is
terminated via `sys.exit(-2)`; `some c` is the exit code, `none` means
the call returns normally. -/
def pdf_convert_exit (j : PdfJob) : Option ℤ :=
  if j.permissionDenied then some (-2) else none

/-- The sequential PDF loop of `process_path` (convert2cbz.py lines
178-180): `for item in list_pdf: convert_pdf_to_cbz(item, args)` runs in
the main process, so a `sys.exit` raised by one job ends the loop — and
the process — before the remaining jobs run.  Returns how many jobs had
their conversion attempted, and the exit code if the process exited. -/
def process_pdf_batch : List PdfJob → ℕ × Option ℤ
  | [] => (0, none)
  | j :: rest =>
      match pdf_convert_exit j with
      | some c => (1, some c)
      | none =>
          let r := process_pdf_batch rest
          (r.1 + 1, r.2)

theorem as_completed_writes_map_fst (order : List ℕ) (render : ℕ → Option String) :
    (as_completed_writes order render).map Prod.fst =
      order.filter fun i => (render i).isSome := by
  induction order with
  | nil => rfl
  | cons i t ih =>
      simp only [as_completed_writes, List.filterMap_cons, List.filter_cons] at *
      cases h : render i <;> simp [h, ih]

theorem compute_dpi_all_1000 (n : ℕ) (hn : n ≠ 0) :
    compute_dpi (List.replicate n (1000 : ℚ)) = 144 := by
  have h1 : (⌊(2000 : ℚ) / 1000 * 72⌋ : ℤ) = 144 := by norm_num
  have hq : (n : ℚ) ≠ 0 := Nat.cast_ne_zero.mpr hn
  simp only [compute_dpi, List.map_replicate, h1, List.sum_replicate, List.length_replicate,
    nsmul_eq_mul]
  have h2 : (((n : ℤ) * 144 : ℤ) : ℚ) / (n : ℚ) = 144 := by
    push_cast
    field_simp
  rw [h2]
  norm_num [pyRound]

theorem pdf_batch_helper (jobs : List PdfJob) :
    ((∀ j ∈ jobs, j.permissionDenied = false) →
        process_pdf_batch jobs = (jobs.length, none)) ∧
      ∀ c, (process_pdf_batch jobs).2 = some c → c = -2 := by
  induction jobs with
  | nil => exact ⟨fun _ => rfl, fun c hc => by simp [process_pdf_batch] at hc⟩
  | cons j t ih =>
      constructor
      · intro hall
        have hj : j.permissionDenied = false := hall j (by simp)
        have ht := ih.1 fun x hx => hall x (by simp [hx])
        simp [process_pdf_batch, pdf_convert_exit, hj, ht]
      · intro c hc
        by_cases hj : j.permissionDenied
        · simp [process_pdf_batch, pdf_convert_exit, hj] at hc
          omega
        · simp only [process_pdf_batch, pdf_convert_exit, hj, if_neg] at hc
          exact ih.2 c (by simpa using hc)

theorem resolve_doc_inv (resolve : String → String) (fexists : String → Bool) :
    ∀ (imgs : List (Option String)) (acc l : List String),
      resolve_doc resolve fexists acc imgs = Except.ok l →
        (acc.Nodup → l.Nodup) ∧ ∀ p ∈ l, p ∈ acc ∨ fexists p = true := by
  intro imgs
  induction imgs with
  | nil =>
      intro acc l h
      simp only [resolve_doc, Except.ok.injEq] at h
      subst h
      exact ⟨id, fun p hp => Or.inl hp⟩
  | cons o rest ih =>
      intro acc l h
      cases o with
      | none => simp [resolve_doc] at h
      | some src =>
          by_cases hsrc : src = ""
          · rw [resolve_doc, if_pos hsrc] at h
            exact ih acc l h
          · rw [resolve_doc, if_neg hsrc] at h
            by_cases hex : fexists (resolve src) && !(acc.contains (resolve src))
            · rw [if_pos hex] at h
              obtain ⟨hnd, hmem⟩ := ih (acc ++ [resolve src]) l h
              obtain ⟨hex1, hex2⟩ := (Bool.and_eq_true _ _).mp hex
              have hnot : resolve src ∉ acc := by
                simpa using hex2
              refine ⟨fun ha => hnd ?_, fun p hp => ?_⟩
              · simpa [List.nodup_append] using ⟨ha, hnot⟩
              · rcases hmem p hp with hin | hfe
                · rcases List.mem_append.mp hin with hin1 | hin2
                  · exact Or.inl hin1
                  · rcases List.mem_singleton.mp hin2 with rfl
                    exact Or.inr hex1
                · exact Or.inr hfe
            · rw [if_neg hex] at h
              exact ih acc l h

theorem resolve_image_aux_inv (resolve : String → String) (fexists : String → Bool) :
    ∀ (docs : List SpineDoc) (acc l : List String),
      resolve_image_aux resolve fexists acc docs = Except.ok l →
        (acc.Nodup → l.Nodup) ∧ ∀ p ∈ l, p ∈ acc ∨ fexists p = true := by
  intro docs
  induction docs with
  | nil =>
      intro acc l h
      simp only [resolve_image_aux, Except.ok.injEq] at h
      subst h
      exact ⟨id, fun p hp => Or.inl hp⟩
  | cons d rest ih =>
      intro acc l h
      cases d with
      | missing => exact ih acc l h
      | unparsable => exact ih acc l h
      | parsed imgs =>
          rw [resolve_image_aux] at h
          cases hdoc : resolve_doc resolve fexists acc imgs with
          | error e => rw [hdoc] at h; cases h
          | ok acc2 =>
              rw [hdoc] at h
              obtain ⟨hnd1, hm1⟩ := resolve_doc_inv resolve fexists imgs acc acc2 hdoc
              obtain ⟨hnd2, hm2⟩ := ih acc2 l h
              refine ⟨fun ha => hnd2 (hnd1 ha), fun p hp => ?_⟩
              rcases hm2 p hp with hin | hfe
              · exact hm1 p hin
              · exact Or.inr hfe

theorem resolve_image_aux_drop_unparsable (resolve : String → String)
    (fexists : String → Bool) (d₂ : List SpineDoc) :
    ∀ (d₁ : List SpineDoc) (acc : List String),
      resolve_image_aux resolve fexists acc (d₁ ++ SpineDoc.unparsable :: d₂) =
        resolve_image_aux resolve fexists acc (d₁ ++ d₂) := by
  intro d₁
  induction d₁ with
  | nil => intro acc; rfl
  | cons d t ih =>
      intro acc
      cases d with
      | missing => exact ih acc
      | unparsable => exact ih acc
      | parsed imgs =>
          simp only [List.cons_append, resolve_image_aux]
          cases resolve_doc resolve fexists acc imgs with
          | error e => rfl
          | ok acc2 => exact ih acc2

/-- C1 counterexample: with two pages both rendering successfully and the
page-2 future completing first — a legal completion order, a permutation
of the submitted pages — `PdfConverter.convert` writes the page-2 artifact
before the page-1 artifact: the archive's entries are not sorted by
sequence index. -/
theorem pdf_writes_not_sorted_cex :
    List.Perm [2, 1] (pdf_pages 2) ∧
      ¬ List.Sorted (· ≤ ·) ((as_completed_writes [2, 1] render_ok).map Prod.fst) := by
  constructor
  · decide
  · have h : (as_completed_writes [2, 1] render_ok).map Prod.fst = [2, 1] := rfl
    rw [h]
    decide

/-- C1 (amended): `PdfConverter.convert` performs no sort — page artifacts
are written in completion order, so the archive's entry sequence follows
the completion order, not the page-index order; what does hold is that for
every completion order (any permutation of the submitted pages) the
written entries are a permutation of the ones written in submission order,
and the sequence of written page indices is exactly the completion order
restricted to the successfully rendered pages. -/
theorem pdf_writes_completion_order (n : ℕ) (render : ℕ → Option String)
    (order : List ℕ) (h : order.Perm (pdf_pages n)) :
    (as_completed_writes order render).Perm (as_completed_writes (pdf_pages n) render) ∧
      (as_completed_writes order render).map Prod.fst =
        order.filter fun i => (render i).isSome :=
  ⟨h.filterMap _, as_completed_writes_map_fst order render⟩

theorem pdf_writes_completion_order_witness :
    (as_completed_writes [2, 1] render_ok).Perm
        (as_completed_writes (pdf_pages 2) render_ok) ∧
      (as_completed_writes [2, 1] render_ok).map Prod.fst =
        [2, 1].filter fun i => (render_ok i).isSome :=
  pdf_writes_completion_order 2 render_ok [2, 1] (by decide)

/-- C2 counterexample: in a batch of two PDF jobs where the first job's
destination denies write permission, `PdfConverter.convert` calls
`sys.exit(-2)`, which terminates the whole process out of the sequential
loop of `process_path`: only 1 of the 2 jobs is ever attempted, so the
failure is not terminal for that job only and the sibling job is not
processed. -/
theorem pdf_batch_exit_cex :
    process_pdf_batch [⟨true⟩, ⟨false⟩] = (1, some (-2)) ∧
      (1 : ℕ) ≠ ([⟨true⟩, ⟨false⟩] : List PdfJob).length := by
  exact ⟨rfl, by decide⟩

/-- C2 (amended): a write failure on a job's destination caused by lack of
permission is reported distinctly (its own log message and the dedicated
exit code `-2`), but it is terminal for the whole process, not for the
job alone: `sys.exit(-2)` ends the sequential PDF batch loop, so the
sibling jobs submitted after the failing one are never processed; only
when no job's destination is denied does the batch run every job to
completion. -/
theorem pdf_batch_exit_amended (jobs : List PdfJob) :
    ((∀ j ∈ jobs, j.permissionDenied = false) →
        process_pdf_batch jobs = (jobs.length, none)) ∧
      ∀ c, (process_pdf_batch jobs).2 = some c → c = -2 :=
  pdf_batch_helper jobs

theorem pdf_batch_exit_witness :
    process_pdf_batch [⟨false⟩] = (([⟨false⟩] : List PdfJob).length, none) :=
  (pdf_batch_exit_amended [⟨false⟩]).1 (by decide)

/-- C3 (code bug): the directory-scan driver routes e-book-package inputs
to `convert_cbr_to_cbz` instead of `convert_epub_to_cbz` (convert2cbz.py
line 203), so in batch mode an EPUB never reaches the
extract → EPUB Resolver → Assembler path, even though the single-file
driver dispatches the same extension to the EPUB path. -/
theorem epub_batch_misdispatch :
    process_path_worker FileFmt.epub = Worker.cbrWorker ∧
      process_path_worker FileFmt.epub ≠ Worker.epubWorker ∧
      process_input_worker ".epub" = some Worker.epubWorker := by
  refine ⟨rfl, by decide, by decide⟩

/-- C4 counterexample: a one-page document whose only page fails to render
produces an empty artifact sequence, yet `PdfConverter.convert` has
already created the destination archive (`zipfile.ZipFile(output, "w")`
is opened before any page result is collected): an empty archive is left
behind and no "no content" failure is reported. -/
theorem pdf_empty_archive_created :
    as_completed_writes [1] render_fail = [] ∧
      pdf_archive [1] render_fail = some [] ∧
      pdf_archive [1] render_fail ≠ none := by
  refine ⟨rfl, rfl, by simp [pdf_archive]⟩

/-- C4 (amended): the EPUB path honours the claim — `EpubConverter.convert`
creates no archive and reports "no content" exactly when its resolved
image list is empty — but the PDF path does not: `PdfConverter.convert`
opens (and hence creates) the destination archive before any page result
arrives, so the archive exists for every render outcome, including a
document with zero pages or all pages failing. -/
theorem assembler_no_content_amended (images : List String) (order : List ℕ)
    (render : ℕ → Option String) :
    (epub_assemble images = EpubAssembly.noContent ↔ images = []) ∧
      (pdf_archive order render).isSome = true := by
  refine ⟨?_, rfl⟩
  rcases images with _ | ⟨a, t⟩ <;> simp [epub_assemble]

theorem assembler_no_content_witness :
    epub_assemble [] = EpubAssembly.noContent ∧
      (pdf_archive [2, 1] render_fail).isSome = true :=
  ⟨(assembler_no_content_amended [] [2, 1] render_fail).1.mpr rfl,
   (assembler_no_content_amended [] [2, 1] render_fail).2⟩

/-- C5 counterexample: for a document with a single page of width 725pt,
`_compute_dpi` computes `int(2000/725*72) = 198` — `int()` truncates —
whereas the spec's per-page formula `round(2000/725*72) = 199` would make
the function return 199: the code's result differs from the claimed one. -/
theorem compute_dpi_truncation_cex :
    compute_dpi [725] = 198 ∧ computeAutoDpi_spec [725] = 199 := by
  constructor
  · norm_num [compute_dpi, pyRound]
  · norm_num [computeAutoDpi_spec, round_eq]

/-- C5 (amended): `_compute_dpi` computes per page
`dpi_i = int(2000 / width_i * 72)` — truncation, not rounding — then
returns the rounded mean of the `dpi_i`, floored at a minimum of 100;
hence it returns ≥100 for any input, and for a document whose every page
has width exactly 1000pt it returns 144. -/
theorem compute_dpi_amended (widths : List ℚ) (h : widths ≠ []) :
    100 ≤ compute_dpi widths ∧
      ((∀ w ∈ widths, w = 1000) → compute_dpi widths = 144) := by
  refine ⟨le_max_right _ _, fun hall => ?_⟩
  rw [List.eq_replicate_of_mem hall]
  exact compute_dpi_all_1000 widths.length fun hl => h (List.length_eq_zero.mp hl)

theorem compute_dpi_amended_witness :
    100 ≤ compute_dpi [1000] ∧ compute_dpi [1000] = 144 := by
  have h := compute_dpi_amended [1000] (by simp)
  exact ⟨h.1, h.2 (by simp)⟩

/-- C6: an unparsable spine document never aborts image resolution —
`resolve_image` catches the parse error, logs, and skips the document, so
resolving a spine containing an unparsable document gives exactly the
result of resolving the same spine with that document removed: it
contributes zero images and the remaining documents are still processed. -/
theorem resolve_image_skips_unparsable (resolve : String → String)
    (fexists : String → Bool) (d₁ d₂ : List SpineDoc) :
    resolve_image resolve fexists (d₁ ++ SpineDoc.unparsable :: d₂) =
      resolve_image resolve fexists (d₁ ++ d₂) :=
  resolve_image_aux_drop_unparsable resolve fexists d₂ d₁ []

/-- C7: `is_valid_rar` and `is_valid_zip` are total boolean functions of
the probe outcome — every failure the libraries report for the claim's
inputs (empty file, truncated or malformed header, wrong magic bytes,
checksum failure) is mapped to `false`, and only a fully clean integrity
scan yields `true`. -/
theorem archive_validators_total_bool :
    (∀ r : RarProbe, is_valid_rar r = true ↔ r = RarProbe.testOk) ∧
      ∀ z : ZipProbe, is_valid_zip z = true ↔ z = ZipProbe.testOk := by
  constructor
  · intro r; cases r <;> simp [is_valid_rar]
  · intro z; cases z <;> simp [is_valid_zip]

theorem archive_validators_witness :
    is_valid_rar RarProbe.testOk = true ∧ is_valid_zip ZipProbe.testOk = true :=
  ⟨(archive_validators_total_bool.1 RarProbe.testOk).mpr rfl,
   (archive_validators_total_bool.2 ZipProbe.testOk).mpr rfl⟩

/-- C8 counterexample: a `.cbr`-named file whose bytes are a valid zip
(and not a valid RAR) is *not* copied by the convert2cbr.py driver — its
`convert_cbr_to_cbz` performs no validity check and hands the file to
`CbrConverter.convert`, whose `rarfile.RarFile` open raises an uncaught
`NotRarFile`: no destination file is produced, so the conversion is not a
byte-identical copy there. -/
theorem cbr_copy_shim_cex :
    convert_cbr_to_cbz_legacy mislabeled_zip = Except.error () ∧
      convert_cbr_to_cbz_legacy mislabeled_zip ≠
        Except.ok (some mislabeled_zip.zipEntries) := by
  have h : convert_cbr_to_cbz_legacy mislabeled_zip = Except.error () := rfl
  exact ⟨h, by rw [h]; simp⟩

/-- C8 (amended): under the convert2cbz.py driver, a legacy-extension file
that is not a valid legacy archive but is a valid zip container is plainly
copied (`shutil.copy`) to the destination — byte-identical, so the copy's
entry set equals the source's — while the convert2cbr.py driver has no
such fallback: it always invokes the legacy re-encoder, which raises on
such a file. -/
theorem cbr_copy_shim_amended (f : CbrFile) (h1 : f.validRar = false)
    (h2 : f.validZip = true) :
    convert_cbr_to_cbz f = Except.ok (some f.zipEntries) ∧
      convert_cbr_to_cbz_legacy f = Except.error () := by
  constructor <;> simp [convert_cbr_to_cbz, convert_cbr_to_cbz_legacy, h1, h2]

theorem cbr_copy_shim_witness :
    convert_cbr_to_cbz mislabeled_zip = Except.ok (some mislabeled_zip.zipEntries) ∧
      convert_cbr_to_cbz_legacy mislabeled_zip = Except.error () :=
  cbr_copy_shim_amended mislabeled_zip rfl rfl

/-- C9: EPUB image resolution keeps spine order with first-seen
deduplication by resolved path and keeps only references whose resolved
files exist: on the spine `[doc1, doc2]` where doc1 references
`[b.png, a.png]` and doc2 references `[a.png]` (both files existing) the
resolved list is `[b.png, a.png]`, and in general any successfully
resolved list is duplicate-free and contains only existing files. -/
theorem resolve_image_order_dedup :
    resolve_image id exists_ab
        [SpineDoc.parsed [some "b.png", some "a.png"], SpineDoc.parsed [some "a.png"]] =
      Except.ok ["b.png", "a.png"] ∧
      ∀ (resolve : String → String) (fexists : String → Bool)
        (docs : List SpineDoc) (l : List String),
        resolve_image resolve fexists docs = Except.ok l →
          l.Nodup ∧ ∀ p ∈ l, fexists p = true := by
  constructor
  · rfl
  · intro resolve fexists docs l h
    have hinv := resolve_image_aux_inv resolve fexists docs [] l h
    exact ⟨hinv.1 List.nodup_nil,
      fun p hp => (hinv.2 p hp).resolve_left (List.not_mem_nil p)⟩

theorem resolve_image_order_dedup_witness :
    (["b.png", "a.png"] : List String).Nodup ∧
      ∀ p ∈ (["b.png", "a.png"] : List String), exists_ab p = true :=
  resolve_image_order_dedup.2 id exists_ab
    [SpineDoc.parsed [some "b.png", some "a.png"], SpineDoc.parsed [some "a.png"]]
    ["b.png", "a.png"] resolve_image_order_dedup.1

/-- C10: auto-DPI computation in `PdfConverter.convert` is triggered by
any falsy configured DPI — both an unset DPI (`None`) and an explicit `0`
invoke `_compute_dpi` — while any nonzero configured DPI is used exactly
as given, without adjustment. -/
theorem effective_dpi_falsy (widths : List ℚ) :
    effective_dpi none widths = compute_dpi widths ∧
      effective_dpi (some 0) widths = compute_dpi widths ∧
      ∀ d : ℤ, d ≠ 0 → effective_dpi (some d) widths = d :=
  ⟨rfl, by simp [effective_dpi], fun d hd => by simp [effective_dpi, hd]⟩

theorem effective_dpi_falsy_witness :
    effective_dpi (some 0) [1000] = compute_dpi [1000] ∧
      effective_dpi (some 150) [1000] = 150 :=
  ⟨(effective_dpi_falsy [1000]).2.1,
   (effective_dpi_falsy [1000]).2.2 150 (by norm_num)⟩

end Convert2Cbz
